import Mathlib

/-!
Verification of the `memberlist` repository: a shallow embedding of the
secret keyring (`types/src/secret.rs`), the stream-connection dispatcher
(`core/src/network/async/stream.rs`, `Memberlist::handle_conn`) and the
push/pull merge routine (`Memberlist::merge_remote_state`), together with
theorems settling the specification claims about them.

Modelling conventions:
* byte slices `&[u8]` become `List Nat`;
* `indexmap::IndexSet<SecretKey>` becomes a duplicate-free `List SecretKey`
  kept in insertion order, with `insert` appending, `shift_remove` removing
  in place, and `swap_remove` swapping the removed slot with the last entry,
  exactly as the Rust crate documents;
* async functions become pure functions (the locks serialize every operation,
  so each public keyring method is one atomic state transformation);
* the effectful stream handlers become trace-producing functions: the value
  returned is the ordered list of observable I/O / delegate actions the
  handler performs, with the outcomes of fallible environment calls passed
  in as parameters.  Logging, metrics and timeout plumbing are not part of
  any claim and are omitted from the traces.
-/

set_option autoImplicit false

namespace Memberlist

/-- `SecretKey` from `types/src/secret.rs`: an AES-128/192/256 key.
In Rust the payloads are fixed-size byte arrays (`[u8; 16/24/32]`);
here they are byte lists, with well-formedness (`SecretKey.wf`) recording
the length restriction that the Rust types enforce statically. -/
inductive SecretKey where
  | aes128 (k : List Nat)
  | aes192 (k : List Nat)
  | aes256 (k : List Nat)
  deriving DecidableEq, Repr

namespace SecretKey

/-- `SecretKey::as_ref` / `Deref`: the underlying byte slice. -/
def asRef : SecretKey → List Nat
  | aes128 k => k
  | aes192 k => k
  | aes256 k => k

/-- The length restriction the Rust array types enforce: an `Aes128` key has
16 bytes, `Aes192` 24, `Aes256` 32.  Two well-formed keys with the same
bytes are equal, because the byte length determines the variant. -/
def wf : SecretKey → Prop
  | aes128 k => k.length = 16
  | aes192 k => k.length = 24
  | aes256 k => k.length = 32

instance : DecidablePred wf := by
  intro k; cases k <;> simp [wf] <;> infer_instance

theorem eq_of_wf_of_asRef_eq {a b : SecretKey} (ha : a.wf) (hb : b.wf)
    (h : a.asRef = b.asRef) : a = b := by
  cases a <;> cases b <;> simp_all [wf, asRef]

end SecretKey

/-- Error type `SecretKeyringError` from `types/src/secret.rs`. -/
inductive SecretKeyringError where
  | SecretKeyNotFound
  | RemovePrimaryKey
  deriving DecidableEq, Repr

/-- `SecretKeyringInner`: the state guarded by the keyring's `RwLock`.
`keys` models the `IndexSet<SecretKey>`: a list without duplicates, in
insertion order. -/
structure SecretKeyringInner where
  primary_key : SecretKey
  keys : List SecretKey
  deriving DecidableEq, Repr

/-! ### `IndexSet` primitives

The three `IndexSet` operations the keyring uses, on the insertion-order
list view.  Lookups (`get`, `shift_remove`, `swap_remove`) key on the byte
slice (Rust goes through `Borrow<[u8]>`); `insert` uses `SecretKey`
equality. -/

/-- `IndexSet::insert`: append if no equal element is present. -/
def idxInsert (l : List SecretKey) (k : SecretKey) : List SecretKey :=
  if k ∈ l then l else l ++ [k]

/-- `IndexSet::get` keyed by byte slice: first element with those bytes. -/
def idxGet (l : List SecretKey) (b : List Nat) : Option SecretKey :=
  l.find? (fun k => k.asRef = b)

/-- `IndexSet::shift_remove` keyed by byte slice: remove the matching
element, shifting the later elements down (order preserved). -/
def idxShiftRemove (l : List SecretKey) (b : List Nat) : List SecretKey :=
  match l with
  | [] => []
  | k :: rest => if k.asRef = b then rest else k :: idxShiftRemove rest b

/-- `IndexSet::swap_remove` keyed by byte slice: overwrite the matching slot
with the last element and pop the last slot. -/
def idxSwapRemove (l : List SecretKey) (b : List Nat) : List SecretKey :=
  match l.findIdx? (fun k => k.asRef = b) with
  | none => l
  | some i =>
    match l.getLast? with
    | none => l
    | some last => (l.set i last).dropLast

namespace SecretKeyring

/-- `SecretKeyring::new`: a keyring holding only a primary key; the
secondary `IndexSet` starts empty. -/
def new (primary_key : SecretKey) : SecretKeyringInner :=
  { primary_key := primary_key, keys := [] }

/-- `SecretKeyring::primary_key`. -/
def primaryKey (s : SecretKeyringInner) : SecretKey :=
  s.primary_key

/-- `SecretKeyring::remove`: refuse to drop the primary key, otherwise
`shift_remove` the byte-matching entry. -/
def remove (s : SecretKeyringInner) (key : List Nat) :
    Except SecretKeyringError SecretKeyringInner :=
  if s.primary_key.asRef = key then
    .error .RemovePrimaryKey
  else
    .ok { s with keys := idxShiftRemove s.keys key }

/-- `SecretKeyring::insert`: unconditionally insert into the `IndexSet`
(a no-op when the key is already a member). -/
def insert (s : SecretKeyringInner) (key : SecretKey) : SecretKeyringInner :=
  { s with keys := idxInsert s.keys key }

/-- `SecretKeyring::use_key`: promote the key with bytes `key_data` to
primary.  A request for the current primary is an `Ok` no-op; an absent key
is `SecretKeyNotFound`; otherwise the old primary is inserted into the set,
the found key becomes primary, and its old slot is `swap_remove`d. -/
def use_key (s : SecretKeyringInner) (key_data : List Nat) :
    Except SecretKeyringError SecretKeyringInner :=
  if key_data = s.primary_key.asRef then
    .ok s
  else
    match idxGet s.keys key_data with
    | none => .error .SecretKeyNotFound
    | some key =>
      let old_pk := s.primary_key
      let keys1 := idxInsert s.keys old_pk
      .ok { primary_key := key, keys := idxSwapRemove keys1 key_data }

/-- `SecretKeyring::keys`: `once(primary_key).chain(keys)`. -/
def keysList (s : SecretKeyringInner) : List SecretKey :=
  s.primary_key :: s.keys

end SecretKeyring

/-- One public mutating keyring operation, for reasoning about every state
reachable through the API. -/
inductive KeyringOp where
  | insert (k : SecretKey)
  | remove (b : List Nat)
  | useKey (b : List Nat)
  deriving DecidableEq, Repr

/-- Apply one API operation; a failing `remove`/`use_key` leaves the state
unchanged, exactly as the Rust methods do on an early `Err` return. -/
def applyOp (s : SecretKeyringInner) (op : KeyringOp) : SecretKeyringInner :=
  match op with
  | .insert k => SecretKeyring.insert s k
  | .remove b =>
    match SecretKeyring.remove s b with
    | .ok s2 => s2
    | .error _ => s
  | .useKey b =>
    match SecretKeyring.use_key s b with
    | .ok s2 => s2
    | .error _ => s

/-- Run a sequence of keyring operations. -/
def runOps (s : SecretKeyringInner) (ops : List KeyringOp) : SecretKeyringInner :=
  ops.foldl applyOp s

/-- `use(k)` as the specification words it (§4.8: promotion demotes the old
primary "into the set", where `insert` is an "idempotent add to the tail",
and `keys()` then yields "primary first then the rest in insertion order"):
the demoted primary is appended at the tail and the promoted key is removed
with the order of the remaining keys preserved.  This definition exists only
to be compared against the source-level `SecretKeyring.use_key`, which uses
`swap_remove` instead. -/
def SpecKeyring.use_key (s : SecretKeyringInner) (key_data : List Nat) :
    Except SecretKeyringError SecretKeyringInner :=
  if key_data = s.primary_key.asRef then
    .ok s
  else
    match idxGet s.keys key_data with
    | none => .error .SecretKeyNotFound
    | some key =>
      .ok { primary_key := key
            keys := idxShiftRemove (idxInsert s.keys s.primary_key) key_data }

/-- `applyOp` with the spec-worded `use(k)` in place of the source one. -/
def specApplyOp (s : SecretKeyringInner) (op : KeyringOp) : SecretKeyringInner :=
  match op with
  | .insert k => SecretKeyring.insert s k
  | .remove b =>
    match SecretKeyring.remove s b with
    | .ok s2 => s2
    | .error _ => s
  | .useKey b =>
    match SpecKeyring.use_key s b with
    | .ok s2 => s2
    | .error _ => s

/-- Run a sequence of operations under the spec-worded `use(k)`. -/
def specRunOps (s : SecretKeyringInner) (ops : List KeyringOp) : SecretKeyringInner :=
  ops.foldl specApplyOp s

/-- A concrete well-formed AES-128 test key: sixteen copies of byte `n`. -/
def tk (n : Nat) : SecretKey :=
  SecretKey.aes128 (List.replicate 16 n)

/-- The byte slice of `tk n`. -/
def tkb (n : Nat) : List Nat :=
  List.replicate 16 n

/-- Keyring trace refuting claim C2: install three secondary keys, then
promote the middle one. -/
def cexOps : List KeyringOp :=
  [KeyringOp.insert (tk 1), KeyringOp.insert (tk 2), KeyringOp.insert (tk 3),
   KeyringOp.useKey (tkb 2)]

/-! ### Stream dispatcher (`core/src/network/async/stream.rs`)

`Memberlist::handle_conn` reads one framed message from an accepted stream
connection and dispatches on its kind.  Node ids are abstracted to `Nat`
(the code only compares them for equality), sequence numbers to `Nat`
(the `u32` is never operated on arithmetically here). -/

/-- One remote node state inside a `PushPull` frame
(`PushServerState` fields, with `Id`/`Address` abstracted to `Nat`). -/
structure NodeState where
  id : Nat
  addr : Nat
  meta : List Nat
  incarnation : Nat
  state : Nat
  protocol_version : Nat
  delegate_version : Nat
  deriving DecidableEq, Repr

/-- The `Server` value `merge_remote_state` builds for the merge delegate:
every field of the node state except the incarnation. -/
structure Server where
  id : Nat
  addr : Nat
  meta : List Nat
  state : Nat
  protocol_version : Nat
  delegate_version : Nat
  deriving DecidableEq, Repr

/-- The peer record `merge_remote_state` derives from a received state. -/
def NodeState.toServer (n : NodeState) : Server :=
  { id := n.id, addr := n.addr, meta := n.meta, state := n.state
    protocol_version := n.protocol_version
    delegate_version := n.delegate_version }

/-- The payload of a `PushPull` frame: join flag, remote node states and
opaque delegate user data. -/
structure PushPull where
  join : Bool
  states : List NodeState
  user_data : List Nat
  deriving DecidableEq, Repr

/-- The message kinds `handle_conn` distinguishes.  `other` stands for every
kind that falls into the wildcard arm (logged and dropped). -/
inductive Message where
  | ping (targetId : Nat) (seqNo : Nat)
  | pushPull (pp : PushPull)
  | userData (data : List Nat)
  | other (kind : Nat)
  deriving DecidableEq, Repr

/-- The observable actions a stream-connection handler can perform, in
order.  `sendNack` never occurs in `handle_conn` traces — it is part of the
vocabulary so that claims about `Nack` replies are statable. -/
inductive StreamAction where
  | sendErrorResponse (message : String)
  | sendAck (seqNo : Nat)
  | sendNack (seqNo : Nat)
  | sendLocalState
  | mergeRemoteState
  | notifyMessage (data : List Nat)
  | cacheStream
  deriving DecidableEq, Repr

/-- Modelled from the spec: the constant `MAX_PUSH_PULL_REQUESTS` is defined
outside the sampled sources; §4.5 of the spec fixes its default to 128
(`max_push_pull_requests`, default 128). -/
def MAX_PUSH_PULL_REQUESTS : Nat := 128

/-- `Memberlist::handle_conn`, as the ordered list of observable actions.

* `localId` — the local node id;
* `numConcurrent` — the value `hot.push_pull_req.fetch_add(1)` returned,
  i.e. the number of push/pull handlers already in flight;
* `hasDelegate` — whether a delegate is installed;
* `readResult` — outcome of `read_message`: the decoded message, or the
  decode error rendered as a string;
* `sendLocalStateOk` — whether `send_local_state` succeeds.

Fallible calls whose failure the code only logs (the `Ack` send, the merge,
`cache_stream`, `notify_message`, the error-response send) do not alter the
control flow and need no outcome parameter. -/
def handleConn (localId : Nat) (numConcurrent : Nat) (hasDelegate : Bool)
    (readResult : Except String Message) (sendLocalStateOk : Bool) :
    List StreamAction :=
  match readResult with
  | .error e =>
    -- decode failure: answer with an `ErrorResponse` carrying the error
    -- message, then return (closing the connection) whatever the send did
    [.sendErrorResponse e]
  | .ok msg =>
    match msg with
    | .ping targetId seqNo =>
      if targetId ≠ localId then
        []  -- log "got ping for unexpected node" and return: no reply
      else
        -- send the ack (failure only logged), then pool the connection
        [.sendAck seqNo, .cacheStream]
    | .pushPull _pp =>
      if numConcurrent ≥ MAX_PUSH_PULL_REQUESTS then
        []  -- log "too many pending push/pull requests" and return
      else if sendLocalStateOk = false then
        [.sendLocalState]  -- the attempt failed: log and return
      else
        [.sendLocalState, .mergeRemoteState, .cacheStream]
    | .userData data =>
      if hasDelegate then [.notifyMessage data] else []
    | .other _ =>
      []  -- log "received invalid msg type" and drop

/-! ### `Memberlist::merge_remote_state` -/

/-- The error classes `merge_remote_state` can return:
`verify_protocol` failures and delegate-reported failures. -/
inductive MergeErr where
  | protocolVersion
  | delegate
  deriving DecidableEq, Repr

/-- The observable steps of `merge_remote_state`, in order. -/
inductive MergeAction where
  | verifyProtocol (states : List NodeState)
  | notifyMerge (peers : List Server)
  | mergeState (states : List NodeState)
  | mergeUserState (data : List Nat) (join : Bool)
  deriving DecidableEq, Repr

/-- The tail of `merge_remote_state` after the join/delegate gate: merge the
membership state, then hand non-empty user data to the delegate. -/
def mergeTail (pp : PushPull) (hasDelegate : Bool) (mergeUserOk : Bool)
    (t : List MergeAction) : List MergeAction × Option MergeErr :=
  let t2 := t ++ [MergeAction.mergeState pp.states]
  if hasDelegate ∧ pp.user_data ≠ [] then
    (t2 ++ [MergeAction.mergeUserState pp.user_data pp.join],
     if mergeUserOk then none else some MergeErr.delegate)
  else
    (t2, none)

/-- `Memberlist::merge_remote_state` as a trace of its observable steps plus
its result.  `verifyOk` is the outcome of `verify_protocol`,
`notifyMergeOk` of `delegate.notify_merge`, `mergeUserOk` of
`delegate.merge_remote_state`. -/
def mergeRemoteState (pp : PushPull) (verifyOk hasDelegate notifyMergeOk
    mergeUserOk : Bool) : List MergeAction × Option MergeErr :=
  let t0 := [MergeAction.verifyProtocol pp.states]
  if verifyOk = false then
    (t0, some MergeErr.protocolVersion)
  else if pp.join ∧ hasDelegate then
    let peers := pp.states.map NodeState.toServer
    let t1 := t0 ++ [MergeAction.notifyMerge peers]
    if notifyMergeOk = false then
      (t1, some MergeErr.delegate)
    else
      mergeTail pp hasDelegate mergeUserOk t1
  else
    mergeTail pp hasDelegate mergeUserOk t0

/-! ## Supporting lemmas -/

theorem mem_idxInsert_self (l : List SecretKey) (k : SecretKey) :
    k ∈ idxInsert l k := by
  unfold idxInsert
  split
  · assumption
  · exact List.mem_append_right _ (List.mem_singleton.mpr rfl)

theorem idxShiftRemove_sublist (l : List SecretKey) (b : List Nat) :
    (idxShiftRemove l b).Sublist l := by
  induction l with
  | nil => simp [idxShiftRemove]
  | cons k rest ih =>
    unfold idxShiftRemove
    split
    · exact List.sublist_cons_self k rest
    · exact List.Sublist.cons₂ k ih

theorem not_mem_map_asRef_idxShiftRemove {l : List SecretKey} {b : List Nat}
    (hnd : (l.map SecretKey.asRef).Nodup) :
    b ∉ (idxShiftRemove l b).map SecretKey.asRef := by
  induction l with
  | nil => simp [idxShiftRemove]
  | cons k rest ih =>
    simp only [List.map_cons, List.nodup_cons] at hnd
    unfold idxShiftRemove
    split
    · next h => intro hb; exact hnd.1 (h ▸ hb)
    · next h =>
      simp only [List.map_cons, List.mem_cons]
      rintro (hb | hb)
      · exact h hb.symm
      · exact ih hnd.2 hb

/-- Byte views of distinct well-formed keys are distinct, so the
`IndexSet` uniqueness invariant yields duplicate-free byte views. -/
theorem nodup_map_asRef_of_wf {l : List SecretKey} (hnd : l.Nodup)
    (hwf : ∀ k ∈ l, k.wf) : (l.map SecretKey.asRef).Nodup :=
  hnd.map_on fun x hx y hy h =>
    SecretKey.eq_of_wf_of_asRef_eq (hwf x hx) (hwf y hy) h

/-- An element whose bytes differ from the removed bytes survives
`swap_remove` (it may merely change position). -/
theorem mem_idxSwapRemove_of_asRef_ne {l : List SecretKey} {a : SecretKey}
    {b : List Nat} (ha : a ∈ l) (hne : a.asRef ≠ b) :
    a ∈ idxSwapRemove l b := by
  unfold idxSwapRemove
  cases hidx : l.findIdx? (fun k => k.asRef = b) with
  | none => simpa using ha
  | some i =>
    cases hlast : l.getLast? with
    | none =>
      rw [List.getLast?_eq_none_iff] at hlast
      subst hlast
      cases ha
    | some last =>
      obtain ⟨hi, hpi, -⟩ := List.findIdx?_eq_some_iff_getElem.mp hidx
      have hpib : (l.get ⟨i, hi⟩).asRef = b := by simpa using hpi
      obtain ⟨j, hj, hgj⟩ := List.mem_iff_getElem.mp ha
      have hn1 : l.length - 1 < l.length := by omega
      have hlasteq : l.get ⟨l.length - 1, hn1⟩ = last := by
        have h1 : l[l.length - 1]? = some last := by
          rw [← List.getLast?_eq_getElem?]; exact hlast
        rw [List.getElem?_eq_getElem hn1] at h1
        exact Option.some.inj h1
      have hji : j ≠ i := by
        intro h
        apply hne
        rw [← hgj]
        subst h
        exact hpib
      by_cases hjn : j = l.length - 1
      · refine List.mem_iff_getElem.mpr ⟨i, ?_, ?_⟩
        · simp only [List.length_dropLast, List.length_set]
          omega
        · rw [List.getElem_dropLast, List.getElem_set_self, ← hlasteq]
          subst hjn
          exact hgj
      · refine List.mem_iff_getElem.mpr ⟨j, ?_, ?_⟩
        · simp only [List.length_dropLast, List.length_set]
          omega
        · rw [List.getElem_dropLast, List.getElem_set_ne (fun h => hji h.symm)]
          exact hgj

/-! ## Claim theorems -/

/-- C1, counterexample: with 128 push/pull handlers already in flight, an
inbound `PushPull` is dropped with an **empty** action trace — in
particular no `ErrorResponse` is sent back to the peer, contrary to the
claim that the connection is dropped "with an error response sent back to
the peer". -/
theorem C1_counterexample :
    handleConn 0 MAX_PUSH_PULL_REQUESTS false
      (Except.ok (Message.pushPull { join := false, states := [], user_data := [] }))
      true = [] := by
  decide

/-- C1, amended: if the concurrent push/pull counter already equals or
exceeds `MAX_PUSH_PULL_REQUESTS` (128), the handler drops the connection
immediately and silently — it performs no action at all: no error response
is sent and no local state is sent. -/
theorem C1_amended (lid n : Nat) (d : Bool) (pp : PushPull) (sOk : Bool)
    (h : MAX_PUSH_PULL_REQUESTS ≤ n) :
    handleConn lid n d (Except.ok (Message.pushPull pp)) sOk = [] := by
  simp [handleConn, h]

/-- Witness for C1: the amended theorem applied at a concrete over-limit
counter value. -/
theorem C1_witness :
    handleConn 7 200 true
      (Except.ok (Message.pushPull { join := true, states := [], user_data := [9] }))
      false = [] :=
  C1_amended 7 200 true { join := true, states := [], user_data := [9] } false
    (by decide)

/-- C2, counterexample: starting from a keyring with primary `tk 0`,
installing `tk 1`, `tk 2`, `tk 3` and then promoting `tk 2` yields
`keys() = [tk 2, tk 1, tk 0, tk 3]`, while listing the primary first and
the rest in insertion order (the spec-worded `use`, which demotes the old
primary to the tail and removes the promoted key order-preservingly) would
yield `[tk 2, tk 1, tk 3, tk 0]`: the demoted primary `tk 0` is swapped
into the promoted key's old slot, not appended. -/
theorem C2_counterexample :
    SecretKeyring.keysList (runOps (SecretKeyring.new (tk 0)) cexOps) =
      [tk 2, tk 1, tk 0, tk 3] ∧
    SecretKeyring.keysList (specRunOps (SecretKeyring.new (tk 0)) cexOps) =
      [tk 2, tk 1, tk 3, tk 0] ∧
    SecretKeyring.keysList (runOps (SecretKeyring.new (tk 0)) cexOps) ≠
      SecretKeyring.keysList (specRunOps (SecretKeyring.new (tk 0)) cexOps) := by
  refine ⟨by decide, by decide, by decide⟩

/-- C2, amended: `keys()` always yields the primary key first and then the
secondary keys in the keyring's internal set order (so
`keys()[0] == primary()` holds in every state); `insert` appends a fresh
key at the tail and a successful `remove` keeps the primary and preserves
the relative order of the remaining keys (a sublist), but after a `use`
the tail need not be in insertion order, because `use` swap-removes the
promoted key. -/
theorem C2_amended :
    (∀ s : SecretKeyringInner,
      SecretKeyring.keysList s = s.primary_key :: s.keys ∧
      (SecretKeyring.keysList s).head? = some s.primary_key) ∧
    (∀ (s : SecretKeyringInner) (k : SecretKey),
      k ∉ s.keys → (SecretKeyring.insert s k).keys = s.keys ++ [k]) ∧
    (∀ (s : SecretKeyringInner) (b : List Nat) (s2 : SecretKeyringInner),
      SecretKeyring.remove s b = .ok s2 →
        s2.primary_key = s.primary_key ∧ s2.keys.Sublist s.keys) := by
  refine ⟨fun s => ⟨rfl, rfl⟩, fun s k hk => ?_, fun s b s2 h => ?_⟩
  · simp [SecretKeyring.insert, idxInsert, hk]
  · unfold SecretKeyring.remove at h
    split at h
    · cases h
    · cases h
      exact ⟨rfl, idxShiftRemove_sublist s.keys b⟩

/-- Witness for C2: the amended theorem applied to a concrete keyring. -/
theorem C2_witness :
    (tk 2) ∉ [tk 1] ∧
    (SecretKeyring.insert { primary_key := tk 0, keys := [tk 1] } (tk 2)).keys =
      [tk 1] ++ [tk 2] :=
  ⟨by decide, C2_amended.2.1 { primary_key := tk 0, keys := [tk 1] } (tk 2) (by decide)⟩

/-- C3, counterexample: a stream `Ping` whose target id (1) differs from
the local id (0) produces an **empty** action trace: the connection is
closed without any reply, and in particular no `Nack` is sent, contrary to
the claim that such a `Ping` "is answered with a Nack" on the stream
dispatcher. -/
theorem C3_counterexample :
    handleConn 0 0 false (Except.ok (Message.ping 1 42)) true = [] ∧
    StreamAction.sendNack 42 ∉ handleConn 0 0 false (Except.ok (Message.ping 1 42)) true := by
  refine ⟨by decide, by decide⟩

/-- C3, amended: on the stream dispatcher, a `Ping` whose target id does
not equal the local id is dropped with no reply at all (the connection is
simply closed); a `Ping` whose target id equals the local id is answered
with an `Ack` carrying the same seq number, after which the connection is
returned to the idle pool. -/
theorem C3_amended (lid n : Nat) (d : Bool) (tgt seq : Nat) (sOk : Bool) :
    (tgt ≠ lid → handleConn lid n d (Except.ok (Message.ping tgt seq)) sOk = []) ∧
    (tgt = lid → handleConn lid n d (Except.ok (Message.ping tgt seq)) sOk =
      [StreamAction.sendAck seq, StreamAction.cacheStream]) := by
  constructor <;> intro h <;> simp [handleConn, h]

/-- Witness for C3: the amended theorem applied at a matching target id. -/
theorem C3_witness :
    handleConn 5 0 false (Except.ok (Message.ping 5 9)) true =
      [StreamAction.sendAck 9, StreamAction.cacheStream] :=
  (C3_amended 5 0 false 5 9 true).2 rfl

/-- C4, counterexample: on a keyring freshly created from primary `tk 4`
(secondary set empty), `use` with the primary's own bytes succeeds and
leaves the keyring unchanged — the old primary is **not** moved into the
secondary key set (which stays empty), yet the call does not fail with
`SecretKeyNotFound` either, refuting the claim's dichotomy at this input. -/
theorem C4_counterexample :
    SecretKeyring.use_key (SecretKeyring.new (tk 4)) (tkb 4) =
      Except.ok (SecretKeyring.new (tk 4)) ∧
    (SecretKeyring.new (tk 4)).keys = [] := by
  refine ⟨rfl, rfl⟩

/-- C4, amended: `use(k)` with `k` equal to the current primary succeeds
and leaves the keyring unchanged; `use(k)` with `k` installed in the
secondary key set makes `k` the primary and moves the old primary into the
secondary key set; `use(k)` fails with `SecretKeyNotFound` (leaving the
keyring unchanged) when `k` is neither the primary nor in the secondary
set.  After every successful `use(k)`, `primary()` has the requested
bytes. -/
theorem C4_amended (s : SecretKeyringInner) (b : List Nat) :
    (b = s.primary_key.asRef → SecretKeyring.use_key s b = Except.ok s) ∧
    (b ≠ s.primary_key.asRef → idxGet s.keys b = none →
      SecretKeyring.use_key s b = Except.error .SecretKeyNotFound) ∧
    (∀ k : SecretKey, b ≠ s.primary_key.asRef → idxGet s.keys b = some k →
      ∃ s2, SecretKeyring.use_key s b = Except.ok s2 ∧
        s2.primary_key = k ∧ k.asRef = b ∧ k ∈ s.keys ∧
        s.primary_key ∈ s2.keys) := by
  refine ⟨fun h => by simp [SecretKeyring.use_key, h],
          fun h hget => by simp [SecretKeyring.use_key, h, hget],
          fun k h hget => ?_⟩
  refine ⟨{ primary_key := k
            keys := idxSwapRemove (idxInsert s.keys s.primary_key) b },
          by simp [SecretKeyring.use_key, h, hget], rfl, ?_, ?_, ?_⟩
  · have := List.find?_some hget
    simpa using this
  · exact List.mem_of_find?_eq_some hget
  · have hk : k.asRef = b := by simpa using List.find?_some hget
    exact mem_idxSwapRemove_of_asRef_ne
      (mem_idxInsert_self s.keys s.primary_key) (fun hc => h hc.symm)

/-- Witness for C4: the amended theorem applied to a keyring with primary
`tk 0` and one installed secondary key `tk 1`. -/
theorem C4_witness :
    ∃ s2, SecretKeyring.use_key { primary_key := tk 0, keys := [tk 1] } (tkb 1) =
        Except.ok s2 ∧
      s2.primary_key = tk 1 ∧ (tk 1).asRef = tkb 1 ∧ tk 1 ∈ [tk 1] ∧
      tk 0 ∈ s2.keys :=
  (C4_amended { primary_key := tk 0, keys := [tk 1] } (tkb 1)).2.2 (tk 1)
    (by decide) (by decide)

/-- C5: `remove(k)` fails with `RemovePrimaryKey` when `k`'s bytes are the
primary key's bytes (the early error return leaves the keyring untouched);
otherwise it succeeds and `k` is no longer present anywhere in the keyring.
The `Nodup` hypothesis is the `IndexSet` uniqueness invariant carried to
byte views (valid because well-formed keys with equal bytes are equal,
`SecretKey.eq_of_wf_of_asRef_eq` with `nodup_map_asRef_of_wf`). -/
theorem C5_remove (s : SecretKeyringInner) (b : List Nat) :
    (s.primary_key.asRef = b →
      SecretKeyring.remove s b = Except.error .RemovePrimaryKey) ∧
    (s.primary_key.asRef ≠ b → (s.keys.map SecretKey.asRef).Nodup →
      ∃ s2, SecretKeyring.remove s b = Except.ok s2 ∧
        b ∉ (SecretKeyring.keysList s2).map SecretKey.asRef) := by
  refine ⟨fun h => by simp [SecretKeyring.remove, h], fun h hnd => ?_⟩
  refine ⟨{ s with keys := idxShiftRemove s.keys b },
          by simp [SecretKeyring.remove, h], ?_⟩
  simp only [SecretKeyring.keysList, List.map_cons, List.mem_cons]
  rintro (hb | hb)
  · exact h hb.symm
  · exact not_mem_map_asRef_idxShiftRemove hnd hb

/-- Witness for C5: removing the non-primary key `tk 1` from a concrete
keyring succeeds and eliminates it. -/
theorem C5_witness :
    ∃ s2, SecretKeyring.remove { primary_key := tk 0, keys := [tk 1] } (tkb 1) =
        Except.ok s2 ∧
      tkb 1 ∉ (SecretKeyring.keysList s2).map SecretKey.asRef :=
  (C5_remove { primary_key := tk 0, keys := [tk 1] } (tkb 1)).2
    (by decide) (by decide)

/-- C6: when reading/decoding the single framed message fails, the handler
sends back exactly one `ErrorResponse` carrying the error message, then
returns (closing the connection) without dispatching anything: the whole
action trace is that one send. -/
theorem C6_decode_failure (lid n : Nat) (d : Bool) (e : String) (sOk : Bool) :
    handleConn lid n d (Except.error e) sOk = [StreamAction.sendErrorResponse e] :=
  rfl

/-- C7: in `merge_remote_state` with `join = true` and a delegate present,
`notify_merge` receives the peer list derived from the received states; if
it fails, the whole call aborts with that delegate error and `merge_state`
is never invoked (the membership table is untouched); and on the success
path `notify_merge` happens strictly before `merge_state`. -/
theorem C7_notify_merge (pp : PushPull) (mergeUserOk : Bool)
    (hjoin : pp.join = true) :
    mergeRemoteState pp true true false mergeUserOk =
      ([MergeAction.verifyProtocol pp.states,
        MergeAction.notifyMerge (pp.states.map NodeState.toServer)],
       some MergeErr.delegate) ∧
    (∀ sts, MergeAction.mergeState sts ∉
      (mergeRemoteState pp true true false mergeUserOk).1) ∧
    (mergeRemoteState pp true true true mergeUserOk).1.take 3 =
      [MergeAction.verifyProtocol pp.states,
       MergeAction.notifyMerge (pp.states.map NodeState.toServer),
       MergeAction.mergeState pp.states] := by
  refine ⟨by simp [mergeRemoteState, hjoin], ?_, ?_⟩
  · intro sts
    simp [mergeRemoteState, hjoin]
  · by_cases hud : pp.user_data = [] <;>
      simp [mergeRemoteState, mergeTail, hjoin, hud]

/-- Witness for C7: a concrete join push/pull whose merge delegate
rejects. -/
theorem C7_witness :
    mergeRemoteState { join := true, states := [], user_data := [3] }
        true true false true =
      ([MergeAction.verifyProtocol [], MergeAction.notifyMerge []],
       some MergeErr.delegate) :=
  (C7_notify_merge { join := true, states := [], user_data := [3] } true rfl).1

/-- C8: an inbound `PushPull` accepted under the concurrency limit first
sends the local state on the same stream, then merges the received remote
state, and finally returns the connection to the transport's idle pool —
in exactly that order. -/
theorem C8_pushpull_order (lid n : Nat) (d : Bool) (pp : PushPull)
    (h : n < MAX_PUSH_PULL_REQUESTS) :
    handleConn lid n d (Except.ok (Message.pushPull pp)) true =
      [StreamAction.sendLocalState, StreamAction.mergeRemoteState,
       StreamAction.cacheStream] := by
  simp [handleConn, Nat.not_le.mpr h]

/-- Witness for C8: the theorem applied at an in-limit counter value. -/
theorem C8_witness :
    handleConn 0 0 false
      (Except.ok (Message.pushPull { join := false, states := [], user_data := [] }))
      true =
      [StreamAction.sendLocalState, StreamAction.mergeRemoteState,
       StreamAction.cacheStream] :=
  C8_pushpull_order 0 0 false { join := false, states := [], user_data := [] }
    (by decide)

/-- C9: when the primary key is not in the secondary set, `insert`ing a key
equal to the primary appends it to the secondary set, and `keys()` then
yields the primary key twice — once at the head and once from the set. -/
theorem C9_insert_primary (s : SecretKeyringInner)
    (h : s.primary_key ∉ s.keys) :
    (SecretKeyring.insert s s.primary_key).keys = s.keys ++ [s.primary_key] ∧
    (SecretKeyring.keysList (SecretKeyring.insert s s.primary_key)).count
      s.primary_key = 2 := by
  have hk : idxInsert s.keys s.primary_key = s.keys ++ [s.primary_key] := by
    simp [idxInsert, h]
  refine ⟨hk, ?_⟩
  simp [SecretKeyring.keysList, SecretKeyring.insert, hk,
    List.count_cons, List.count_append, List.count_eq_zero.mpr h]

/-- Witness for C9: inserting the primary `tk 0` into a keyring whose
secondary set holds only `tk 1`. -/
theorem C9_witness :
    (SecretKeyring.insert { primary_key := tk 0, keys := [tk 1] } (tk 0)).keys =
      [tk 1] ++ [tk 0] ∧
    (SecretKeyring.keysList
      (SecretKeyring.insert { primary_key := tk 0, keys := [tk 1] } (tk 0))).count
      (tk 0) = 2 :=
  C9_insert_primary { primary_key := tk 0, keys := [tk 1] } (by decide)

/-- C10: `use` with byte data equal to the current primary key's bytes
returns `Ok` and leaves the keyring completely unchanged, for **every**
keyring state — including states whose secondary set does not contain the
primary, such as a keyring built by `new`. -/
theorem C10_use_primary (s : SecretKeyringInner) :
    SecretKeyring.use_key s s.primary_key.asRef = Except.ok s := by
  simp [SecretKeyring.use_key]

end Memberlist
